import Mathlib

/-!
Shallow embedding of the in-memory CRUD API (items, users) of this repository.

The Python process stores records in module-level dicts (`items_db`, `users_db`)
keyed by an integer id, together with a monotonically increasing counter
(`item_id_counter`, `user_id_counter`).  Python dicts preserve insertion order,
so each store is embedded as an insertion-ordered association list
`List (Nat × Rec)` together with the counter.

Pydantic validation of request bodies happens before a handler runs; it is
embedded as a function collecting one error per violated field constraint.
Update payloads distinguish an absent field from one supplied as an explicit
JSON null (every update field is `Optional[...]`, so null passes validation,
is kept by `model_dump(exclude_unset=True)`, and is written into the stored
dict): each update field is an `Option (Option _)` — presence outside, the
possibly-null value inside — and the mutable stored fields are accordingly
nullable.  `float` prices are embedded as rationals (the claims only use
ordering and equality).  `datetime.now()` is embedded as an abstract tick
`now : Nat` supplied with each mutating operation.  Each endpoint handler
becomes a pure function from store state (and the decoded, validated-or-not
payload) to an outcome and a new store state.
-/

/-- One entry of the structured validation-error list produced by the
`RequestValidationError` handler in `app/middleware/error_handler.py`
(fields `field`, `message`, `type`). -/
structure FieldError where
  field : String
  message : String
  errType : String
deriving DecidableEq, Repr

/-! ## Item schemas (`app/api/schemas/item.py`) -/

/-- Decoded `ItemCreate` payload (= `ItemBase`): `name`, optional
`description`, `price`, `is_available` (pydantic fills the default `True`
when the key is absent, so the decoded payload always carries a Bool). -/
structure ItemCreate where
  name : String
  description : Option String
  price : ℚ
  is_available : Bool
deriving DecidableEq, Repr

/-- Decoded `ItemUpdate` payload.  Every source field is `Optional[...]` with
default `None`, so a client may omit a field or supply it as an explicit JSON
null; `model_dump(exclude_unset=True)` keeps exactly the supplied fields,
null or not.  The outer `Option` is presence in the payload, the inner
`Option` is the supplied value (with `none` for an explicit null). -/
structure ItemUpdate where
  name : Option (Option String)
  description : Option (Option String)
  price : Option (Option ℚ)
  is_available : Option (Option Bool)
deriving DecidableEq, Repr

/-- Embedding of `name: str = Field(..., min_length=1, max_length=100)` -/
def validItemName (s : String) : Bool :=
  1 ≤ s.length && s.length ≤ 100

/-- Embedding of `description: Optional[str] = Field(None, max_length=500)` -/
def validItemDescription : Option String → Bool
  | none => true
  | some d => d.length ≤ 500

/-- Embedding of `price: float = Field(..., gt=0)` -/
def validItemPrice (p : ℚ) : Bool :=
  decide (0 < p)

/-- Pydantic validation of an `ItemCreate` body: all field violations are
collected (not fail-fast), in field declaration order. -/
def validateItemCreate (p : ItemCreate) : List FieldError :=
  (if validItemName p.name then []
   else [⟨"name", "invalid name length", "string_length"⟩])
  ++ (if validItemDescription p.description then []
      else [⟨"description", "invalid description length", "string_length"⟩])
  ++ (if validItemPrice p.price then []
      else [⟨"price", "Input should be greater than 0", "greater_than"⟩])

/-- Pydantic validation of an `ItemUpdate` body: constraints are checked only
on fields supplied with a non-null value; an absent field or an explicit null
passes (each field is `Optional`, so `None` is a valid member and the
`min_length`/`gt` constraints apply only to the non-null branch). -/
def validateItemUpdate (p : ItemUpdate) : List FieldError :=
  (match p.name with
   | some (some n) => if validItemName n then []
                      else [⟨"name", "invalid name length", "string_length"⟩]
   | _ => [])
  ++ (match p.description with
      | some (some d) => if validItemDescription (some d) then []
                         else [⟨"description", "invalid description length", "string_length"⟩]
      | _ => [])
  ++ (match p.price with
      | some (some pr) => if validItemPrice pr then []
                          else [⟨"price", "Input should be greater than 0", "greater_than"⟩]
      | _ => [])

/-- A stored item record: the dict built in `create_item`
(`id`, `name`, `description`, `price`, `is_available`, `created_at`,
`updated_at`).  `name`, `price` and `is_available` are nullable because an
update payload may set them to an explicit JSON null, which
`item_data.update(...)` writes into the stored dict; `create_item` always
stores them non-null. -/
structure ItemRec where
  id : Nat
  name : Option String
  description : Option String
  price : Option ℚ
  is_available : Option Bool
  created_at : Nat
  updated_at : Option Nat
deriving DecidableEq, Repr

/-- The `ItemResponse` schema: `ItemBase` plus `id`, `created_at`,
`updated_at` (same fields as a stored record). -/
structure ItemResponse where
  id : Nat
  name : String
  description : Option String
  price : ℚ
  is_available : Bool
  created_at : Nat
  updated_at : Option Nat
deriving DecidableEq, Repr

/-- The `ItemList` response schema. -/
structure ItemList where
  items : List ItemResponse
  total : Nat
  page : Nat
  page_size : Nat
deriving DecidableEq, Repr

/-- The `ItemBase` constraints that `ItemResponse(**item_data)` re-validates at
response-construction time: `name` must be a string of valid length, `price`
a strictly positive number and `is_available` a bool (a stored null in any of
them makes the construction raise); `description` may be null. -/
def itemRecWF (r : ItemRec) : Bool :=
  (match r.name with
   | some n => validItemName n
   | none => false)
  && validItemDescription r.description
  && (match r.price with
      | some pr => validItemPrice pr
      | none => false)
  && r.is_available.isSome

/-- Field-for-field projection of a stored record to an `ItemResponse`; used
only under `itemRecWF`, where `name`, `price` and `is_available` are non-null
and the `getD` defaults are never observed. -/
def itemResponseOf (r : ItemRec) : ItemResponse :=
  ⟨r.id, r.name.getD "", r.description, r.price.getD 0, r.is_available.getD true,
    r.created_at, r.updated_at⟩

/-- Embedding of `ItemResponse(**item_data)`: pydantic re-validates the `ItemBase`
constraints; on violation it raises (handled as a 500 by the outermost
exception handler), embedded as `none`. -/
def mkItemResponse (r : ItemRec) : Option ItemResponse :=
  if itemRecWF r then some (itemResponseOf r) else none

/-! ## Insertion-ordered dictionaries (Python `dict[int, dict]`) -/

/-- Embedding of `k in d` / `d[k]` lookup. -/
def dictLookup (l : List (Nat × α)) (k : Nat) : Option α :=
  match l with
  | [] => none
  | kv :: rest => if kv.1 = k then some kv.2 else dictLookup rest k

/-- Embedding of `d[k] = v`: replaces in place when the key is present, appends otherwise
(Python dicts preserve insertion order). -/
def dictInsert (l : List (Nat × α)) (k : Nat) (v : α) : List (Nat × α) :=
  match l with
  | [] => [(k, v)]
  | kv :: rest => if kv.1 = k then (k, v) :: rest else kv :: dictInsert rest k v

/-- In-place mutation of the record object stored under `k` (Python
`item_data.update(...)` mutates the dict entry without moving it). -/
def dictReplace (l : List (Nat × α)) (k : Nat) (v : α) : List (Nat × α) :=
  l.map (fun kv => if kv.1 = k then (k, v) else kv)

/-- Embedding of `del d[k]`. -/
def dictErase (l : List (Nat × α)) (k : Nat) : List (Nat × α) :=
  l.filter (fun kv => kv.1 ≠ k)

/-- Embedding of `list(d.values())` in insertion order. -/
def dictValues (l : List (Nat × α)) : List α :=
  l.map Prod.snd

/-! ## Item store state and handlers (`app/api/endpoints/items.py`) -/

/-- The module-level item store: `items_db` plus `item_id_counter`. -/
structure ItemsState where
  items_db : List (Nat × ItemRec)
  item_id_counter : Nat
deriving DecidableEq, Repr

/-- Fresh process state: empty dict, counter 1. -/
def initItemsState : ItemsState := ⟨[], 1⟩

/-- Outcome of one item request, as seen at the transport boundary. -/
inductive ItemOutcome where
  | created (r : ItemResponse)
  | ok (r : ItemResponse)
  | listed (l : ItemList)
  | noContent
  | validationFailed (errors : List FieldError)
  | notFound (detail : String)
  | serverError
deriving DecidableEq, Repr

/-- Embedding of `POST /items`: body validation happens before the handler; the handler
builds the record, stores it under the current counter, increments the
counter, then constructs the response. -/
def create_item (s : ItemsState) (item : ItemCreate) (now : Nat) :
    ItemOutcome × ItemsState :=
  match validateItemCreate item with
  | e :: es => (.validationFailed (e :: es), s)
  | [] =>
    let item_data : ItemRec :=
      ⟨s.item_id_counter, some item.name, item.description, some item.price,
        some item.is_available, now, none⟩
    let s' : ItemsState :=
      ⟨dictInsert s.items_db s.item_id_counter item_data, s.item_id_counter + 1⟩
    match mkItemResponse item_data with
    | some resp => (.created resp, s')
    | none => (.serverError, s')

/-- Embedding of `GET /items/{item_id}`. -/
def get_item (s : ItemsState) (item_id : Nat) : ItemOutcome :=
  match dictLookup s.items_db item_id with
  | none => .notFound ("Item with id " ++ toString item_id ++ " not found")
  | some r =>
    match mkItemResponse r with
    | some resp => .ok resp
    | none => .serverError

/-- Embedding of `Query(1, ge=1)` for `page`, `Query(10, ge=1, le=100)` for `page_size`. -/
def pageParamsValid (page page_size : Nat) : Bool :=
  1 ≤ page && 1 ≤ page_size && page_size ≤ 100

/-- Embedding of `GET /items?page&page_size&available_only`: filter, count, then slice
`[start:start+page_size]` with `start = (page-1)*page_size`; only the
paginated slice is converted to responses. -/
def get_items (s : ItemsState) (page page_size : Nat) (available_only : Bool) :
    ItemOutcome :=
  if pageParamsValid page page_size then
    let all_items := dictValues s.items_db
    let all_items :=
      if available_only then all_items.filter (fun r => r.is_available.getD false)
      else all_items
    let total := all_items.length
    let start := (page - 1) * page_size
    let paginated_items := (all_items.drop start).take page_size
    match paginated_items.mapM mkItemResponse with
    | some resps => .listed ⟨resps, total, page, page_size⟩
    | none => .serverError
  else
    .validationFailed [⟨"query", "invalid pagination parameters", "value_error"⟩]

/-- Embedding of `item_data.update(update_data); item_data["updated_at"] = now`: merge
exactly the fields present in the payload into the stored record, then stamp
the update time.  `id` and `created_at` are not in the update schema and are
never touched. -/
def itemApplyUpdate (item_data : ItemRec) (item_update : ItemUpdate) (now : Nat) :
    ItemRec :=
  { item_data with
    name :=
      match item_update.name with
      | some v => v
      | none => item_data.name
    description :=
      match item_update.description with
      | some v => v
      | none => item_data.description
    price :=
      match item_update.price with
      | some v => v
      | none => item_data.price
    is_available :=
      match item_update.is_available with
      | some v => v
      | none => item_data.is_available
    updated_at := some now }

/-- Embedding of `PUT /items/{item_id}`: body validation first (transport layer), then
membership check, then `item_data.update(update_data)` with only the fields
present in the payload, then `updated_at = now`, then response construction. -/
def update_item (s : ItemsState) (item_id : Nat) (item_update : ItemUpdate)
    (now : Nat) : ItemOutcome × ItemsState :=
  match validateItemUpdate item_update with
  | e :: es => (.validationFailed (e :: es), s)
  | [] =>
    match dictLookup s.items_db item_id with
    | none => (.notFound ("Item with id " ++ toString item_id ++ " not found"), s)
    | some item_data =>
      let item_data' : ItemRec := itemApplyUpdate item_data item_update now
      let s' : ItemsState := ⟨dictReplace s.items_db item_id item_data', s.item_id_counter⟩
      match mkItemResponse item_data' with
      | some resp => (.ok resp, s')
      | none => (.serverError, s')

/-- Embedding of `DELETE /items/{item_id}`. -/
def delete_item (s : ItemsState) (item_id : Nat) : ItemOutcome × ItemsState :=
  match dictLookup s.items_db item_id with
  | none => (.notFound ("Item with id " ++ toString item_id ++ " not found"), s)
  | some _ => (.noContent, ⟨dictErase s.items_db item_id, s.item_id_counter⟩)

/-- One decoded item request (the timestamp models `datetime.now()` at the
moment the mutating handler runs). -/
inductive ItemOp where
  | createOp (item : ItemCreate) (now : Nat)
  | getOp (item_id : Nat)
  | listOp (page page_size : Nat) (available_only : Bool)
  | updateOp (item_id : Nat) (item_update : ItemUpdate) (now : Nat)
  | deleteOp (item_id : Nat)
deriving DecidableEq, Repr

/-- Dispatch one item request against the store. -/
def applyItemOp (s : ItemsState) : ItemOp → ItemOutcome × ItemsState
  | .createOp p now => create_item s p now
  | .getOp i => (get_item s i, s)
  | .listOp p ps ao => (get_items s p ps ao, s)
  | .updateOp i u now => update_item s i u now
  | .deleteOp i => delete_item s i

/-- Run a sequence of item requests, collecting the outcomes. -/
def runItemOps (ops : List ItemOp) (s : ItemsState) :
    List ItemOutcome × ItemsState :=
  match ops with
  | [] => ([], s)
  | op :: rest =>
    let r := applyItemOp s op
    let rr := runItemOps rest r.2
    (r.1 :: rr.1, rr.2)

/-! ## User schemas (`app/api/schemas/user.py`) -/

/-- Abstraction of pydantic's `EmailStr` syntax check (the repository never
depends on the exact email grammar, only on whether the check passed). -/
def isEmailStr (s : String) : Bool :=
  s.data.any (fun c => c = '@')

/-- Embedding of `username: str = Field(..., min_length=3, max_length=50)` -/
def validUsername (s : String) : Bool :=
  3 ≤ s.length && s.length ≤ 50

/-- Embedding of `password: str = Field(..., min_length=8, max_length=100)` -/
def validPassword (s : String) : Bool :=
  8 ≤ s.length && s.length ≤ 100

/-- Decoded `UserCreate` payload: `UserBase` (email, username, optional
full_name) plus `password`. -/
structure UserCreate where
  email : String
  username : String
  full_name : Option String
  password : String
deriving DecidableEq, Repr

/-- Decoded `UserUpdate` payload: optional `email`, `full_name`, `password`;
the outer `Option` is presence in the payload (`exclude_unset` semantics),
the inner `Option` the supplied value, `none` for an explicit JSON null
(every source field is `Optional[...]`, so null is accepted).  The schema
carries no `username` field. -/
structure UserUpdate where
  email : Option (Option String)
  full_name : Option (Option String)
  password : Option (Option String)
deriving DecidableEq, Repr

/-- Pydantic validation of a `UserCreate` body, collecting all violations in
field declaration order. -/
def validateUserCreate (p : UserCreate) : List FieldError :=
  (if isEmailStr p.email then []
   else [⟨"email", "value is not a valid email address", "value_error"⟩])
  ++ (if validUsername p.username then []
      else [⟨"username", "invalid username length", "string_length"⟩])
  ++ (if validPassword p.password then []
      else [⟨"password", "invalid password length", "string_length"⟩])

/-- Pydantic validation of a `UserUpdate` body: constraints only on fields
supplied with a non-null value (`full_name` is unconstrained; an explicit
null passes for every field, since each is `Optional`). -/
def validateUserUpdate (p : UserUpdate) : List FieldError :=
  (match p.email with
   | some (some e) => if isEmailStr e then []
                      else [⟨"email", "value is not a valid email address", "value_error"⟩]
   | _ => [])
  ++ (match p.password with
      | some (some pw) => if validPassword pw then []
                          else [⟨"password", "invalid password length", "string_length"⟩]
      | _ => [])

/-- A stored user record.  `email` is nullable because an update may set it
to an explicit JSON null; `username` and `is_active` are never touched after
create and stay non-null.  `create_user` builds the dict without a `password`
key; `update_user` merges `update_data`, which may add one: the outer
`Option` of `password` embeds key presence, the inner the stored value
(possibly null); it is never read or serialized on any path. -/
structure UserRec where
  id : Nat
  email : Option String
  username : String
  full_name : Option String
  is_active : Bool
  created_at : Nat
  updated_at : Option Nat
  password : Option (Option String)
deriving DecidableEq, Repr

/-- The `UserResponse` schema: `UserBase` plus `id`, `is_active`,
`created_at`, `updated_at`.  It declares no `password` field; pydantic's
default `extra="ignore"` drops the extra `password` key when a stored dict
carrying one is passed to `UserResponse(**user_data)`. -/
structure UserResponse where
  id : Nat
  email : String
  username : String
  full_name : Option String
  is_active : Bool
  created_at : Nat
  updated_at : Option Nat
deriving DecidableEq, Repr

/-- The `UserList` response schema. -/
structure UserList where
  users : List UserResponse
  total : Nat
  page : Nat
  page_size : Nat
deriving DecidableEq, Repr

/-- The `UserBase` constraints re-validated by `UserResponse(**user_data)`:
`email` must be a non-null valid email, `username` a valid-length string. -/
def userRecWF (r : UserRec) : Bool :=
  (match r.email with
   | some e => isEmailStr e
   | none => false)
  && validUsername r.username

/-- Projection of a stored user record onto the declared `UserResponse`
fields (the stored `password`, when present, is ignored). -/
def userResponseOf (r : UserRec) : UserResponse :=
  ⟨r.id, r.email.getD "", r.username, r.full_name, r.is_active, r.created_at,
    r.updated_at⟩

/-- Embedding of `UserResponse(**user_data)`: re-validates `UserBase` constraints, raising
(500 at the boundary) on violation. -/
def mkUserResponse (r : UserRec) : Option UserResponse :=
  if userRecWF r then some (userResponseOf r) else none

/-- A JSON value, for the serialized form of a response record. -/
inductive JVal where
  | jstr (s : String)
  | jnum (n : Nat)
  | jbool (b : Bool)
  | jnull
deriving DecidableEq, Repr

/-- Serialization of a `UserResponse` instance: pydantic emits exactly the
declared fields, in declaration order. -/
def userResponseFields (r : UserResponse) : List (String × JVal) :=
  [("email", .jstr r.email),
   ("username", .jstr r.username),
   ("full_name", match r.full_name with | some n => .jstr n | none => .jnull),
   ("id", .jnum r.id),
   ("is_active", .jbool r.is_active),
   ("created_at", .jnum r.created_at),
   ("updated_at", match r.updated_at with | some t => .jnum t | none => .jnull)]

/-! ## User store state and handlers (`app/api/endpoints/users.py`) -/

/-- The module-level user store: `users_db` plus `user_id_counter`. -/
structure UsersState where
  users_db : List (Nat × UserRec)
  user_id_counter : Nat
deriving DecidableEq, Repr

/-- Fresh process state: empty dict, counter 1. -/
def initUsersState : UsersState := ⟨[], 1⟩

/-- Outcome of one user request. -/
inductive UserOutcome where
  | created (r : UserResponse)
  | ok (r : UserResponse)
  | listed (l : UserList)
  | noContent
  | validationFailed (errors : List FieldError)
  | notFound (detail : String)
  | conflict (detail : String)
  | serverError
deriving DecidableEq, Repr

/-- The duplicate scan in `create_user`: iterate `users_db.values()` in store
order; for each existing user check `username` first, then `email`; raise 400
with the first conflicting field found. -/
def findConflict (users : List UserRec) (user : UserCreate) : Option String :=
  match users with
  | [] => none
  | existing_user :: rest =>
    if existing_user.username = user.username then some "Username already exists"
    else if existing_user.email = some user.email then some "Email already exists"
    else findConflict rest user

/-- Embedding of `POST /users`: validation, duplicate scan, then insert (the stored dict
has no `password` key), counter increment, response construction. -/
def create_user (s : UsersState) (user : UserCreate) (now : Nat) :
    UserOutcome × UsersState :=
  match validateUserCreate user with
  | e :: es => (.validationFailed (e :: es), s)
  | [] =>
    match findConflict (dictValues s.users_db) user with
    | some msg => (.conflict msg, s)
    | none =>
      let user_data : UserRec :=
        ⟨s.user_id_counter, some user.email, user.username, user.full_name,
          true, now, none, none⟩
      let s' : UsersState :=
        ⟨dictInsert s.users_db s.user_id_counter user_data, s.user_id_counter + 1⟩
      match mkUserResponse user_data with
      | some resp => (.created resp, s')
      | none => (.serverError, s')

/-- Embedding of `GET /users/{user_id}`. -/
def get_user (s : UsersState) (user_id : Nat) : UserOutcome :=
  match dictLookup s.users_db user_id with
  | none => .notFound ("User with id " ++ toString user_id ++ " not found")
  | some r =>
    match mkUserResponse r with
    | some resp => .ok resp
    | none => .serverError

/-- Embedding of `GET /users?page&page_size`. -/
def get_users (s : UsersState) (page page_size : Nat) : UserOutcome :=
  if pageParamsValid page page_size then
    let all_users := dictValues s.users_db
    let total := all_users.length
    let start := (page - 1) * page_size
    let paginated_users := (all_users.drop start).take page_size
    match paginated_users.mapM mkUserResponse with
    | some resps => .listed ⟨resps, total, page, page_size⟩
    | none => .serverError
  else
    .validationFailed [⟨"query", "invalid pagination parameters", "value_error"⟩]

/-- Embedding of `user_data.update(update_data); user_data["updated_at"] = now`: merge
exactly the fields present in the payload (`email`, `full_name`, `password`)
into the stored record; the update schema carries no `username` (nor `id`),
so those fields are never touched.  A supplied `password` is stored into the
dict entry (and later ignored by response construction). -/
def userApplyUpdate (user_data : UserRec) (user_update : UserUpdate) (now : Nat) :
    UserRec :=
  { user_data with
    email :=
      match user_update.email with
      | some v => v
      | none => user_data.email
    full_name :=
      match user_update.full_name with
      | some v => v
      | none => user_data.full_name
    password :=
      match user_update.password with
      | some v => some v
      | none => user_data.password
    updated_at := some now }

/-- Embedding of `PUT /users/{user_id}`: body validation, membership check,
`user_data.update(update_data)` with only the present fields (`username` and
`id` are not in the schema so are never touched), `updated_at = now`,
response construction. -/
def update_user (s : UsersState) (user_id : Nat) (user_update : UserUpdate)
    (now : Nat) : UserOutcome × UsersState :=
  match validateUserUpdate user_update with
  | e :: es => (.validationFailed (e :: es), s)
  | [] =>
    match dictLookup s.users_db user_id with
    | none => (.notFound ("User with id " ++ toString user_id ++ " not found"), s)
    | some user_data =>
      let user_data' : UserRec := userApplyUpdate user_data user_update now
      let s' : UsersState := ⟨dictReplace s.users_db user_id user_data', s.user_id_counter⟩
      match mkUserResponse user_data' with
      | some resp => (.ok resp, s')
      | none => (.serverError, s')

/-- Embedding of `DELETE /users/{user_id}`. -/
def delete_user (s : UsersState) (user_id : Nat) : UserOutcome × UsersState :=
  match dictLookup s.users_db user_id with
  | none => (.notFound ("User with id " ++ toString user_id ++ " not found"), s)
  | some _ => (.noContent, ⟨dictErase s.users_db user_id, s.user_id_counter⟩)

/-- One decoded user request. -/
inductive UserOp where
  | createOp (user : UserCreate) (now : Nat)
  | getOp (user_id : Nat)
  | listOp (page page_size : Nat)
  | updateOp (user_id : Nat) (user_update : UserUpdate) (now : Nat)
  | deleteOp (user_id : Nat)
deriving DecidableEq, Repr

/-- Dispatch one user request against the store. -/
def applyUserOp (s : UsersState) : UserOp → UserOutcome × UsersState
  | .createOp p now => create_user s p now
  | .getOp i => (get_user s i, s)
  | .listOp p ps => (get_users s p ps, s)
  | .updateOp i u now => update_user s i u now
  | .deleteOp i => delete_user s i

/-- Run a sequence of user requests, collecting the outcomes. -/
def runUserOps (ops : List UserOp) (s : UsersState) :
    List UserOutcome × UsersState :=
  match ops with
  | [] => ([], s)
  | op :: rest =>
    let r := applyUserOp s op
    let rr := runUserOps rest r.2
    (r.1 :: rr.1, rr.2)

/-- The user records serialized in the body of one outcome: the single record
of a `created`/`ok` response, the page of a `listed` response, none for
error outcomes (whose bodies are `detail`/`errors`/`message` objects). -/
def userOutcomeRecords : UserOutcome → List UserResponse
  | .created r => [r]
  | .ok r => [r]
  | .listed l => l.users
  | _ => []

/-- The ids carried by the `created` responses of a trace, in order. -/
def createdIds (trace : List ItemOutcome) : List Nat :=
  trace.filterMap (fun o => match o with | .created r => some r.id | _ => none)

/-- Store invariant: every key in `items_db` is below the counter. -/
def itemKeysBelow (s : ItemsState) : Prop :=
  ∀ kv ∈ s.items_db, kv.1 < s.item_id_counter

/-- Store invariant: no stored item record carries a non-positive numeric
price (each price is strictly positive or null). -/
def itemsPricePos (s : ItemsState) : Prop :=
  ∀ r ∈ dictValues s.items_db, ∀ pr : ℚ, r.price = some pr → 0 < pr

/-! ## Dictionary lemmas -/

theorem dictLookup_dictInsert_self (l : List (Nat × α)) (k : Nat) (v : α) :
    dictLookup (dictInsert l k v) k = some v := by
  induction l with
  | nil => simp [dictInsert, dictLookup]
  | cons kv rest ih =>
    by_cases h : kv.1 = k
    · simp [dictInsert, dictLookup, h]
    · simp [dictInsert, dictLookup, h, ih]

theorem dictLookup_dictInsert_ne (l : List (Nat × α)) (k k' : Nat) (v : α)
    (h : k ≠ k') : dictLookup (dictInsert l k v) k' = dictLookup l k' := by
  induction l with
  | nil => simp [dictInsert, dictLookup, h]
  | cons kv rest ih =>
    by_cases hk : kv.1 = k
    · simp [dictInsert, dictLookup, hk, h]
    · simp [dictInsert, dictLookup, hk, ih]

theorem dictLookup_dictReplace_self (l : List (Nat × α)) (k : Nat) (v w : α)
    (h : dictLookup l k = some w) :
    dictLookup (dictReplace l k v) k = some v := by
  induction l with
  | nil => simp [dictLookup] at h
  | cons kv rest ih =>
    by_cases hk : kv.1 = k
    · simp [dictReplace, dictLookup, hk]
    · simp [dictLookup, hk] at h
      simp [dictReplace, dictLookup, hk] at ih ⊢
      exact ih h

theorem dictLookup_cons_none {kv : Nat × α} {rest : List (Nat × α)} {k : Nat}
    (h : dictLookup (kv :: rest) k = none) :
    kv.1 ≠ k ∧ dictLookup rest k = none := by
  by_cases hk : kv.1 = k
  · simp [dictLookup, hk] at h
  · exact ⟨hk, by simpa [dictLookup, hk] using h⟩

theorem dictLookup_dictReplace_none (l : List (Nat × α)) (k k' : Nat) (v : α)
    (h : dictLookup l k' = none) :
    dictLookup (dictReplace l k v) k' = none := by
  induction l with
  | nil => simp [dictReplace, dictLookup]
  | cons kv rest ih =>
    obtain ⟨h1, h2⟩ := dictLookup_cons_none h
    by_cases hk : kv.1 = k
    · have : k ≠ k' := hk ▸ h1
      simp [dictReplace, dictLookup, hk, this]
      simpa [dictReplace] using ih h2
    · simp [dictReplace, dictLookup, hk, h1]
      simpa [dictReplace] using ih h2

theorem dictLookup_dictErase_self (l : List (Nat × α)) (k : Nat) :
    dictLookup (dictErase l k) k = none := by
  induction l with
  | nil => simp [dictErase, dictLookup]
  | cons kv rest ih =>
    by_cases hk : kv.1 = k
    · simpa [dictErase, hk] using ih
    · simpa [dictErase, dictLookup, hk] using ih

theorem dictLookup_dictErase_none (l : List (Nat × α)) (k k' : Nat)
    (h : dictLookup l k' = none) :
    dictLookup (dictErase l k) k' = none := by
  induction l with
  | nil => simp [dictErase, dictLookup]
  | cons kv rest ih =>
    obtain ⟨h1, h2⟩ := dictLookup_cons_none h
    by_cases hk : kv.1 = k
    · simpa [dictErase, hk] using ih h2
    · simpa [dictErase, dictLookup, hk, h1] using ih h2

theorem dictLookup_some_mem (l : List (Nat × α)) (k : Nat) (v : α)
    (h : dictLookup l k = some v) : (k, v) ∈ l := by
  induction l with
  | nil => simp [dictLookup] at h
  | cons kv rest ih =>
    by_cases hk : kv.1 = k
    · simp [dictLookup, hk] at h
      have : (k, v) = kv := by
        rw [← hk, ← h]
      rw [this]
      exact List.mem_cons_self kv rest
    · simp [dictLookup, hk] at h
      exact List.mem_cons_of_mem _ (ih h)

theorem dictValues_dictInsert_append (l : List (Nat × α)) (k : Nat) (v : α)
    (h : dictLookup l k = none) :
    dictValues (dictInsert l k v) = dictValues l ++ [v] := by
  induction l with
  | nil => simp [dictInsert, dictValues]
  | cons kv rest ih =>
    obtain ⟨h1, h2⟩ := dictLookup_cons_none h
    simp [dictInsert, dictValues, h1] at ih ⊢
    exact ih h2

theorem mem_dictInsert (l : List (Nat × α)) (k : Nat) (v : α) (kv : Nat × α)
    (h : kv ∈ dictInsert l k v) : kv = (k, v) ∨ kv ∈ l := by
  induction l with
  | nil => simpa [dictInsert] using h
  | cons hd rest ih =>
    by_cases hk : hd.1 = k
    · simp [dictInsert, hk] at h
      rcases h with h | h
      · exact Or.inl h
      · exact Or.inr (List.mem_cons_of_mem _ h)
    · simp [dictInsert, hk] at h
      rcases h with h | h
      · exact Or.inr (by simp [h])
      · rcases ih h with h' | h'
        · exact Or.inl h'
        · exact Or.inr (List.mem_cons_of_mem _ h')

theorem mem_dictReplace (l : List (Nat × α)) (k : Nat) (v : α) (kv : Nat × α)
    (h : kv ∈ dictReplace l k v) : ∃ kv₀ ∈ l, kv.1 = kv₀.1 ∧ (kv.2 = v ∨ kv = kv₀) := by
  simp only [dictReplace, List.mem_map] at h
  obtain ⟨kv₀, hmem, heq⟩ := h
  refine ⟨kv₀, hmem, ?_⟩
  by_cases hk : kv₀.1 = k
  · simp [hk] at heq
    subst heq
    exact ⟨hk.symm, Or.inl rfl⟩
  · simp [hk] at heq
    subst heq
    exact ⟨rfl, Or.inr rfl⟩

theorem mem_dictErase (l : List (Nat × α)) (k : Nat) (kv : Nat × α)
    (h : kv ∈ dictErase l k) : kv ∈ l :=
  List.mem_of_mem_filter h

theorem mem_values_dictReplace (l : List (Nat × α)) (k : Nat) (v : α) (r : α)
    (h : r ∈ dictValues (dictReplace l k v)) :
    r = v ∨ r ∈ dictValues l := by
  simp only [dictValues, List.mem_map] at h
  obtain ⟨kv, hmem, heq⟩ := h
  obtain ⟨kv₀, hmem₀, _, hcase⟩ := mem_dictReplace l k v kv hmem
  rcases hcase with h2 | h2
  · exact Or.inl (heq ▸ h2)
  · refine Or.inr (List.mem_map.mpr ⟨kv₀, hmem₀, ?_⟩)
    rw [← h2]
    exact heq

theorem mem_values_dictInsert (l : List (Nat × α)) (k : Nat) (v : α) (r : α)
    (h : r ∈ dictValues (dictInsert l k v)) :
    r = v ∨ r ∈ dictValues l := by
  simp only [dictValues, List.mem_map] at h
  obtain ⟨kv, hmem, heq⟩ := h
  rcases mem_dictInsert l k v kv hmem with h2 | h2
  · exact Or.inl (by rw [← heq, h2])
  · exact Or.inr (List.mem_map.mpr ⟨kv, h2, heq⟩)

theorem mem_values_dictErase (l : List (Nat × α)) (k : Nat) (r : α)
    (h : r ∈ dictValues (dictErase l k)) : r ∈ dictValues l := by
  simp only [dictValues, List.mem_map] at h ⊢
  obtain ⟨kv, hmem, heq⟩ := h
  exact ⟨kv, mem_dictErase l k kv hmem, heq⟩

theorem dictLookup_none_of_keysBelow (l : List (Nat × α)) (c : Nat)
    (h : ∀ kv ∈ l, kv.1 < c) : dictLookup l c = none := by
  cases hl : dictLookup l c with
  | none => rfl
  | some v =>
    have := h _ (dictLookup_some_mem l c v hl)
    simp at this

/-! ## Validation lemmas -/

theorem validateItemCreate_eq_nil (p : ItemCreate) :
    validateItemCreate p = [] ↔
      validItemName p.name = true ∧ validItemDescription p.description = true ∧
        validItemPrice p.price = true := by
  unfold validateItemCreate
  by_cases h1 : validItemName p.name <;>
    by_cases h2 : validItemDescription p.description <;>
      by_cases h3 : validItemPrice p.price <;>
        simp [h1, h2, h3]

theorem validateItemUpdate_name (p : ItemUpdate) (hv : validateItemUpdate p = [])
    (n : String) (hn : p.name = some (some n)) : validItemName n = true := by
  unfold validateItemUpdate at hv
  rw [hn] at hv
  by_cases h : validItemName n
  · exact h
  · simp [h] at hv

theorem validateItemUpdate_description (p : ItemUpdate)
    (hv : validateItemUpdate p = []) (d : String)
    (hd : p.description = some (some d)) : validItemDescription (some d) = true := by
  unfold validateItemUpdate at hv
  rw [hd] at hv
  by_cases h : validItemDescription (some d)
  · exact h
  · simp [h] at hv

theorem validateItemUpdate_price (p : ItemUpdate) (hv : validateItemUpdate p = [])
    (pr : ℚ) (hp : p.price = some (some pr)) : validItemPrice pr = true := by
  unfold validateItemUpdate at hv
  rw [hp] at hv
  by_cases h : validItemPrice pr
  · exact h
  · simp [h] at hv

theorem validateUserCreate_eq_nil (p : UserCreate) :
    validateUserCreate p = [] ↔
      isEmailStr p.email = true ∧ validUsername p.username = true ∧
        validPassword p.password = true := by
  unfold validateUserCreate
  by_cases h1 : isEmailStr p.email <;>
    by_cases h2 : validUsername p.username <;>
      by_cases h3 : validPassword p.password <;>
        simp [h1, h2, h3]

/-- A record freshly built by `create_item` from a payload that passed
validation satisfies the `ItemBase` constraints. -/
theorem itemRecWF_of_create (p : ItemCreate) (c now : Nat)
    (hv : validateItemCreate p = []) :
    itemRecWF ⟨c, some p.name, p.description, some p.price, some p.is_available,
      now, none⟩ = true := by
  obtain ⟨h1, h2, h3⟩ := (validateItemCreate_eq_nil p).mp hv
  simp [itemRecWF, h1, h2, h3]

/-- No non-positive numeric price is ever stored: a record's price is either
strictly positive or null (the latter only after an explicitly-null price
update). -/
def itemPricePos (r : ItemRec) : Prop :=
  ∀ pr : ℚ, r.price = some pr → 0 < pr

/-- Merging a validated partial update into a record whose price is positive
or null keeps the price positive or null: a supplied non-null price was
checked by `gt=0`, a supplied null makes it null, an absent field keeps the
old value. -/
theorem itemPricePos_itemApplyUpdate (r : ItemRec) (u : ItemUpdate) (now : Nat)
    (hr : itemPricePos r) (hu : validateItemUpdate u = []) :
    itemPricePos (itemApplyUpdate r u now) := by
  intro pr hpr
  simp only [itemApplyUpdate] at hpr
  cases hp : u.price with
  | none =>
    rw [hp] at hpr
    exact hr pr hpr
  | some v =>
    rw [hp] at hpr
    dsimp only at hpr
    subst hpr
    have := validateItemUpdate_price u hu pr (by rw [hp])
    simpa [validItemPrice] using this

/-- A record freshly built by `create_user` from a validated payload satisfies
the `UserBase` constraints. -/
theorem userRecWF_of_create (p : UserCreate) (c now : Nat)
    (hv : validateUserCreate p = []) :
    userRecWF ⟨c, some p.email, p.username, p.full_name, true, now, none, none⟩ = true := by
  obtain ⟨h1, h2, h3⟩ := (validateUserCreate_eq_nil p).mp hv
  simp [userRecWF, h1, h2]

/-! ## Handler state shape lemmas -/

theorem create_item_state (s : ItemsState) (p : ItemCreate) (now : Nat) :
    (create_item s p now).2 =
      if validateItemCreate p = [] then
        ⟨dictInsert s.items_db s.item_id_counter
          ⟨s.item_id_counter, some p.name, p.description, some p.price,
            some p.is_available, now, none⟩,
         s.item_id_counter + 1⟩
      else s := by
  unfold create_item
  split
  · rename_i e es heq
    simp [heq]
  · rename_i heq
    rw [if_pos heq]
    dsimp only
    split <;> rfl

theorem update_item_state (s : ItemsState) (iid : Nat) (u : ItemUpdate) (now : Nat) :
    (update_item s iid u now).2 =
      if validateItemUpdate u = [] then
        match dictLookup s.items_db iid with
        | none => s
        | some r => ⟨dictReplace s.items_db iid (itemApplyUpdate r u now), s.item_id_counter⟩
      else s := by
  unfold update_item
  split
  · rename_i e es heq
    simp [heq]
  · rename_i heq
    rw [if_pos heq]
    split
    · rename_i hl
      simp [hl]
    · rename_i r hl
      simp only [hl]
      split <;> rfl

theorem delete_item_state (s : ItemsState) (iid : Nat) :
    (delete_item s iid).2 =
      match dictLookup s.items_db iid with
      | none => s
      | some _ => ⟨dictErase s.items_db iid, s.item_id_counter⟩ := by
  unfold delete_item
  split <;> rename_i hl <;> simp [hl]

/-! ## Invariant preservation -/

theorem initItemsState_keysBelow : itemKeysBelow initItemsState := by
  intro kv h
  simp [initItemsState] at h

theorem initItemsState_pricePos : itemsPricePos initItemsState := by
  intro r h
  simp [initItemsState, dictValues] at h

theorem applyItemOp_keysBelow (s : ItemsState) (op : ItemOp)
    (h : itemKeysBelow s) : itemKeysBelow (applyItemOp s op).2 := by
  cases op with
  | createOp p now =>
    show itemKeysBelow (create_item s p now).2
    rw [create_item_state]
    split
    · intro kv hkv
      rcases mem_dictInsert _ _ _ _ hkv with h2 | h2
      · simp [h2]
      · exact Nat.lt_succ_of_lt (h kv h2)
    · exact h
  | getOp i => exact h
  | listOp p ps ao => exact h
  | updateOp i u now =>
    show itemKeysBelow (update_item s i u now).2
    rw [update_item_state]
    split
    · split
      · exact h
      · intro kv hkv
        obtain ⟨kv₀, hmem, hfst, _⟩ := mem_dictReplace _ _ _ _ hkv
        have := h kv₀ hmem
        simpa [hfst] using this
    · exact h
  | deleteOp i =>
    show itemKeysBelow (delete_item s i).2
    rw [delete_item_state]
    split
    · exact h
    · intro kv hkv
      exact h kv (mem_dictErase _ _ _ hkv)

theorem applyItemOp_pricePos (s : ItemsState) (op : ItemOp)
    (h : itemsPricePos s) : itemsPricePos (applyItemOp s op).2 := by
  cases op with
  | createOp p now =>
    show itemsPricePos (create_item s p now).2
    rw [create_item_state]
    split
    · rename_i hv
      intro r hr
      rcases mem_values_dictInsert _ _ _ _ hr with h2 | h2
      · rw [h2]
        intro pr hpr
        have h3 := ((validateItemCreate_eq_nil p).mp hv).2.2
        simp only [validItemPrice, decide_eq_true_eq] at h3
        simp only at hpr
        injection hpr with hpr
        exact hpr ▸ h3
      · exact h r h2
    · exact h
  | getOp i => exact h
  | listOp p ps ao => exact h
  | updateOp i u now =>
    show itemsPricePos (update_item s i u now).2
    rw [update_item_state]
    split
    · rename_i hv
      split
      · exact h
      · rename_i r₀ hl
        intro r hr
        rcases mem_values_dictReplace _ _ _ _ hr with h2 | h2
        · rw [h2]
          have hr₀ : r₀ ∈ dictValues s.items_db :=
            List.mem_map.mpr ⟨(i, r₀), dictLookup_some_mem _ _ _ hl, rfl⟩
          exact itemPricePos_itemApplyUpdate r₀ u now (h r₀ hr₀) hv
        · exact h r h2
    · exact h
  | deleteOp i =>
    show itemsPricePos (delete_item s i).2
    rw [delete_item_state]
    split
    · exact h
    · intro r hr
      exact h r (mem_values_dictErase _ _ _ hr)

theorem applyItemOp_absent (s : ItemsState) (op : ItemOp) (iid : Nat)
    (hlt : iid < s.item_id_counter)
    (habs : dictLookup s.items_db iid = none) :
    iid < (applyItemOp s op).2.item_id_counter ∧
      dictLookup (applyItemOp s op).2.items_db iid = none := by
  cases op with
  | createOp p now =>
    show iid < (create_item s p now).2.item_id_counter ∧
      dictLookup (create_item s p now).2.items_db iid = none
    rw [create_item_state]
    split
    · constructor
      · exact Nat.lt_succ_of_lt hlt
      · have hne : s.item_id_counter ≠ iid := Nat.ne_of_gt hlt
        simpa [dictLookup_dictInsert_ne _ _ _ _ hne] using habs
    · exact ⟨hlt, habs⟩
  | getOp i => exact ⟨hlt, habs⟩
  | listOp p ps ao => exact ⟨hlt, habs⟩
  | updateOp i u now =>
    show iid < (update_item s i u now).2.item_id_counter ∧
      dictLookup (update_item s i u now).2.items_db iid = none
    rw [update_item_state]
    split
    · split
      · exact ⟨hlt, habs⟩
      · exact ⟨hlt, dictLookup_dictReplace_none _ _ _ _ habs⟩
    · exact ⟨hlt, habs⟩
  | deleteOp i =>
    show iid < (delete_item s i).2.item_id_counter ∧
      dictLookup (delete_item s i).2.items_db iid = none
    rw [delete_item_state]
    split
    · exact ⟨hlt, habs⟩
    · exact ⟨hlt, dictLookup_dictErase_none _ _ _ habs⟩

theorem runItemOps_keysBelow (ops : List ItemOp) (s : ItemsState)
    (h : itemKeysBelow s) : itemKeysBelow (runItemOps ops s).2 := by
  induction ops generalizing s with
  | nil => exact h
  | cons op rest ih =>
    exact ih (applyItemOp s op).2 (applyItemOp_keysBelow s op h)

theorem runItemOps_pricePos (ops : List ItemOp) (s : ItemsState)
    (h : itemsPricePos s) : itemsPricePos (runItemOps ops s).2 := by
  induction ops generalizing s with
  | nil => exact h
  | cons op rest ih =>
    exact ih (applyItemOp s op).2 (applyItemOp_pricePos s op h)

theorem runItemOps_absent (ops : List ItemOp) (s : ItemsState) (iid : Nat)
    (hlt : iid < s.item_id_counter)
    (habs : dictLookup s.items_db iid = none) :
    iid < (runItemOps ops s).2.item_id_counter ∧
      dictLookup (runItemOps ops s).2.items_db iid = none := by
  induction ops generalizing s with
  | nil => exact ⟨hlt, habs⟩
  | cons op rest ih =>
    obtain ⟨h1, h2⟩ := applyItemOp_absent s op iid hlt habs
    exact ih (applyItemOp s op).2 h1 h2

/-! ## Listing lemmas -/

/-- When every record of a list satisfies the response constraints, building
its page of responses succeeds and is the plain projection. -/
theorem mapM_mkItemResponse (l : List ItemRec)
    (h : ∀ r ∈ l, itemRecWF r = true) :
    l.mapM mkItemResponse = some (l.map itemResponseOf) := by
  induction l with
  | nil => rfl
  | cons r rest ih =>
    have hr : itemRecWF r = true := h r (List.mem_cons_self r rest)
    have hrest := ih (fun x hx => h x (List.mem_cons_of_mem r hx))
    rw [List.mapM_cons, hrest]
    simp [mkItemResponse, hr]

/-- The sequence of records `get_items` paginates over: all stored values in
insertion order, filtered to the available ones when `available_only`. -/
def listedItems (s : ItemsState) (available_only : Bool) : List ItemRec :=
  if available_only then
    (dictValues s.items_db).filter (fun r => r.is_available.getD false)
  else dictValues s.items_db

/-- Characterization of `get_items` on valid parameters and a store whose
listed slice is well-formed: a `listed` outcome whose items are the
`[(page-1)*k, (page-1)*k + k)` slice of the filtered, insertion-ordered
responses and whose `total` is the filtered count. -/
theorem get_items_eq (s : ItemsState) (page k : Nat) (ao : Bool)
    (hWF : ∀ r ∈ dictValues s.items_db, itemRecWF r = true)
    (hp : 1 ≤ page) (hk1 : 1 ≤ k) (hk2 : k ≤ 100) :
    get_items s page k ao =
      .listed ⟨(((listedItems s ao).map itemResponseOf).drop ((page - 1) * k)).take k,
        (listedItems s ao).length, page, k⟩ := by
  have hparams : pageParamsValid page k = true := by
    simp [pageParamsValid, hp, hk1, hk2]
  have hWF' : ∀ r ∈ ((listedItems s ao).drop ((page - 1) * k)).take k,
      itemRecWF r = true := by
    intro r hr
    have hr1 : r ∈ (listedItems s ao).drop ((page - 1) * k) :=
      List.mem_of_mem_take hr
    have hr2 : r ∈ listedItems s ao := List.mem_of_mem_drop hr1
    unfold listedItems at hr2
    by_cases hao : ao
    · rw [if_pos hao] at hr2
      exact hWF r (List.mem_of_mem_filter hr2)
    · rw [if_neg hao] at hr2
      exact hWF r hr2
  unfold get_items
  rw [if_pos hparams]
  dsimp only
  rw [show (if ao = true then
          (dictValues s.items_db).filter (fun r => r.is_available.getD false)
        else dictValues s.items_db) = listedItems s ao from rfl]
  rw [mapM_mkItemResponse _ hWF']
  simp [List.map_take, List.map_drop]

/-- Concatenating the first `n` pages of size `k` of a list gives its first
`n * k` elements. -/
theorem join_pages (l : List ItemResponse) (k : Nat) (n : Nat) :
    ((List.range n).map (fun i => (l.drop (i * k)).take k)).flatten = l.take (n * k) := by
  induction n with
  | zero => simp
  | succ m ih =>
    rw [List.range_succ, List.map_append, List.flatten_append, ih]
    simp only [List.map_cons, List.map_nil, List.flatten_cons, List.flatten_nil,
      List.append_nil]
    rw [Nat.succ_mul, List.take_add]

/-- The bound `ceil(N/k) * k` covers `N` when `k ≥ 1`. -/
theorem ceil_div_mul_ge (N k : Nat) (hk : 1 ≤ k) : N ≤ (N + k - 1) / k * k := by
  have h1 : k * ((N + k - 1) / k) + (N + k - 1) % k = N + k - 1 :=
    Nat.div_add_mod (N + k - 1) k
  have h2 : (N + k - 1) % k < k := Nat.mod_lt _ hk
  have h3 : k * ((N + k - 1) / k) = (N + k - 1) / k * k := Nat.mul_comm _ _
  omega

/-- A page number past `ceil(N/k)` selects an empty slice. -/
theorem slice_past_end (l : List ItemResponse) (k page : Nat) (hk : 1 ≤ k)
    (h : (l.length + k - 1) / k < page) :
    (l.drop ((page - 1) * k)).take k = [] := by
  have hbound : l.length ≤ (page - 1) * k := by
    have h1 : (l.length + k - 1) / k ≤ page - 1 := by omega
    calc l.length ≤ (l.length + k - 1) / k * k := ceil_div_mul_ge l.length k hk
      _ ≤ (page - 1) * k := Nat.mul_le_mul_right k h1
  rw [List.drop_eq_nil_iff.mpr hbound]
  simp

/-! ## Identifier-assignment lemmas -/

/-- Every step either is a successful create, in which case the response
carries the pre-state counter as id and the counter advances by one, or it
yields no `created` outcome and leaves the counter unchanged. -/
theorem applyItemOp_id_shape (s : ItemsState) (op : ItemOp) :
    (∃ resp, (applyItemOp s op).1 = .created resp ∧ resp.id = s.item_id_counter ∧
      (applyItemOp s op).2.item_id_counter = s.item_id_counter + 1)
    ∨ ((∀ r, (applyItemOp s op).1 ≠ .created r) ∧
       (applyItemOp s op).2.item_id_counter = s.item_id_counter) := by
  cases op with
  | createOp p now =>
    simp only [applyItemOp]
    unfold create_item
    cases hv : validateItemCreate p with
    | nil =>
      left
      have hwf := itemRecWF_of_create p s.item_id_counter now hv
      dsimp only
      simp only [mkItemResponse]
      rw [if_pos hwf]
      exact ⟨_, rfl, rfl, rfl⟩
    | cons e es =>
      right
      exact ⟨fun r => by simp, rfl⟩
  | getOp i =>
    right
    refine ⟨fun r => ?_, rfl⟩
    show get_item s i ≠ .created r
    unfold get_item
    split
    · simp
    · split <;> simp
  | listOp p ps ao =>
    right
    refine ⟨fun r => ?_, rfl⟩
    show get_items s p ps ao ≠ .created r
    unfold get_items
    split
    · dsimp only
      split <;> simp
    · simp
  | updateOp i u now =>
    right
    constructor
    · intro r
      show (update_item s i u now).1 ≠ .created r
      unfold update_item
      split
      · simp
      · split
        · simp
        · dsimp only
          split <;> simp
    · show (update_item s i u now).2.item_id_counter = s.item_id_counter
      rw [update_item_state]
      split
      · split <;> rfl
      · rfl
  | deleteOp i =>
    right
    constructor
    · intro r
      show (delete_item s i).1 ≠ .created r
      unfold delete_item
      split <;> simp
    · show (delete_item s i).2.item_id_counter = s.item_id_counter
      rw [delete_item_state]
      split <;> rfl

theorem runItemOps_cons_fst (op : ItemOp) (ops : List ItemOp) (s : ItemsState) :
    (runItemOps (op :: ops) s).1 =
      (applyItemOp s op).1 :: (runItemOps ops (applyItemOp s op).2).1 := rfl

theorem runItemOps_cons_snd (op : ItemOp) (ops : List ItemOp) (s : ItemsState) :
    (runItemOps (op :: ops) s).2 = (runItemOps ops (applyItemOp s op).2).2 := rfl

theorem createdIds_cons_created (r : ItemResponse) (tr : List ItemOutcome) :
    createdIds (.created r :: tr) = r.id :: createdIds tr := by
  simp [createdIds]

theorem createdIds_cons_not (o : ItemOutcome) (tr : List ItemOutcome)
    (h : ∀ r, o ≠ .created r) : createdIds (o :: tr) = createdIds tr := by
  cases o with
  | created r => exact absurd rfl (h r)
  | ok r => simp [createdIds]
  | listed l => simp [createdIds]
  | noContent => simp [createdIds]
  | validationFailed e => simp [createdIds]
  | notFound d => simp [createdIds]
  | serverError => simp [createdIds]

/-- Ids handed out by successful creates always form the contiguous range
starting at the current counter. -/
theorem createdIds_run (ops : List ItemOp) :
    ∀ s : ItemsState,
      createdIds (runItemOps ops s).1 =
        List.range' s.item_id_counter (createdIds (runItemOps ops s).1).length := by
  induction ops with
  | nil =>
    intro s
    simp [runItemOps, createdIds]
  | cons op rest ih =>
    intro s
    rw [runItemOps_cons_fst]
    rcases applyItemOp_id_shape s op with ⟨resp, h1, h2, h3⟩ | ⟨h1, h2⟩
    · rw [h1, createdIds_cons_created, h2]
      have hih := ih (applyItemOp s op).2
      rw [h3] at hih
      rw [hih]
      simp only [List.length_cons, List.length_range']
      exact (List.range'_succ _ _ _).symm
    · rw [createdIds_cons_not _ _ h1]
      have hih := ih (applyItemOp s op).2
      rw [h2] at hih
      exact hih

/-- Folding a list of validated create requests over a store appends one
well-formed record per payload, in order. -/
theorem runItemOps_creates_values (pts : List (ItemCreate × Nat)) :
    ∀ s : ItemsState, itemKeysBelow s →
      (∀ x ∈ pts, validateItemCreate x.1 = []) →
      ∃ news : List ItemRec,
        dictValues (runItemOps (pts.map fun x => ItemOp.createOp x.1 x.2) s).2.items_db
            = dictValues s.items_db ++ news ∧
          news.length = pts.length ∧
          (∀ r ∈ news, itemRecWF r = true) := by
  induction pts with
  | nil =>
    intro s _ _
    exact ⟨[], by simp [runItemOps], rfl, by simp⟩
  | cons x rest ih =>
    intro s hkb hv
    have hvx : validateItemCreate x.1 = [] := hv x (List.mem_cons_self x rest)
    have habs : dictLookup s.items_db s.item_id_counter = none :=
      dictLookup_none_of_keysBelow _ _ hkb
    have hkb' : itemKeysBelow (applyItemOp s (ItemOp.createOp x.1 x.2)).2 :=
      applyItemOp_keysBelow s _ hkb
    obtain ⟨news, h1, h2, h3⟩ :=
      ih (applyItemOp s (ItemOp.createOp x.1 x.2)).2 hkb'
        (fun y hy => hv y (List.mem_cons_of_mem x hy))
    have happ : (applyItemOp s (ItemOp.createOp x.1 x.2)).2 =
        ⟨dictInsert s.items_db s.item_id_counter
          ⟨s.item_id_counter, some x.1.name, x.1.description, some x.1.price,
            some x.1.is_available, x.2, none⟩,
         s.item_id_counter + 1⟩ := by
      show (create_item s x.1 x.2).2 = _
      rw [create_item_state, if_pos hvx]
    refine ⟨⟨s.item_id_counter, some x.1.name, x.1.description, some x.1.price,
      some x.1.is_available, x.2, none⟩ :: news, ?_, by simp [h2], ?_⟩
    · rw [List.map_cons, runItemOps_cons_snd, h1, happ]
      dsimp only
      rw [dictValues_dictInsert_append _ _ _ habs]
      simp
    · intro r hr
      rcases List.mem_cons.mp hr with h4 | h4
      · rw [h4]
        exact itemRecWF_of_create x.1 s.item_id_counter x.2 hvx
      · exact h3 r h4

/-! ## User handler shape lemmas -/

theorem create_user_state (s : UsersState) (p : UserCreate) (now : Nat) :
    (create_user s p now).2 =
      if validateUserCreate p = [] then
        match findConflict (dictValues s.users_db) p with
        | some _ => s
        | none =>
          ⟨dictInsert s.users_db s.user_id_counter
            ⟨s.user_id_counter, p.email, p.username, p.full_name, true, now, none, none⟩,
           s.user_id_counter + 1⟩
      else s := by
  unfold create_user
  split
  · rename_i e es heq
    simp [heq]
  · rename_i heq
    rw [if_pos heq]
    split
    · rename_i msg hc
      simp [hc]
    · rename_i hc
      simp only [hc]
      split <;> rfl

theorem update_user_state (s : UsersState) (uid : Nat) (u : UserUpdate) (now : Nat) :
    (update_user s uid u now).2 =
      if validateUserUpdate u = [] then
        match dictLookup s.users_db uid with
        | none => s
        | some r => ⟨dictReplace s.users_db uid (userApplyUpdate r u now), s.user_id_counter⟩
      else s := by
  unfold update_user
  split
  · rename_i e es heq
    simp [heq]
  · rename_i heq
    rw [if_pos heq]
    split
    · rename_i hl
      simp [hl]
    · rename_i r hl
      simp only [hl]
      split <;> rfl

theorem delete_user_state (s : UsersState) (uid : Nat) :
    (delete_user s uid).2 =
      match dictLookup s.users_db uid with
      | none => s
      | some _ => ⟨dictErase s.users_db uid, s.user_id_counter⟩ := by
  unfold delete_user
  split <;> rename_i hl <;> simp [hl]

/-! ## Validation-failure outcome lemmas -/

theorem create_item_vf (s : ItemsState) (p : ItemCreate) (now : Nat)
    (errs : List FieldError)
    (h : (create_item s p now).1 = .validationFailed errs) :
    validateItemCreate p ≠ [] := by
  intro hnil
  unfold create_item at h
  rw [hnil] at h
  dsimp only at h
  split at h <;> simp at h

theorem update_item_vf (s : ItemsState) (iid : Nat) (u : ItemUpdate) (now : Nat)
    (errs : List FieldError)
    (h : (update_item s iid u now).1 = .validationFailed errs) :
    validateItemUpdate u ≠ [] := by
  intro hnil
  unfold update_item at h
  rw [hnil] at h
  dsimp only at h
  split at h
  · simp at h
  · split at h <;> simp at h

theorem create_user_vf (s : UsersState) (p : UserCreate) (now : Nat)
    (errs : List FieldError)
    (h : (create_user s p now).1 = .validationFailed errs) :
    validateUserCreate p ≠ [] := by
  intro hnil
  unfold create_user at h
  rw [hnil] at h
  dsimp only at h
  split at h
  · simp at h
  · split at h <;> simp at h

theorem update_user_vf (s : UsersState) (uid : Nat) (u : UserUpdate) (now : Nat)
    (errs : List FieldError)
    (h : (update_user s uid u now).1 = .validationFailed errs) :
    validateUserUpdate u ≠ [] := by
  intro hnil
  unfold update_user at h
  rw [hnil] at h
  dsimp only at h
  split at h
  · simp at h
  · split at h <;> simp at h

/-! ## Claim theorems -/

/-- C2: whenever a request's outcome is `ValidationFailed`, the record store
(mapping and counter) is exactly as it was before the request, for every item
request and every user request. -/
theorem c2_validation_failed_store_unchanged (si : ItemsState) (su : UsersState)
    (iop : ItemOp) (uop : UserOp) (ierrs uerrs : List FieldError) :
    ((applyItemOp si iop).1 = .validationFailed ierrs → (applyItemOp si iop).2 = si) ∧
    ((applyUserOp su uop).1 = .validationFailed uerrs → (applyUserOp su uop).2 = su) := by
  constructor
  · intro h
    cases iop with
    | createOp p now =>
      have hne := create_item_vf si p now ierrs h
      show (create_item si p now).2 = si
      rw [create_item_state, if_neg hne]
    | getOp i => rfl
    | listOp p ps ao => rfl
    | updateOp i u now =>
      have hne := update_item_vf si i u now ierrs h
      show (update_item si i u now).2 = si
      rw [update_item_state, if_neg hne]
    | deleteOp i =>
      exfalso
      have h' : (delete_item si i).1 = .validationFailed ierrs := h
      unfold delete_item at h'
      split at h' <;> simp at h'
  · intro h
    cases uop with
    | createOp p now =>
      have hne := create_user_vf su p now uerrs h
      show (create_user su p now).2 = su
      rw [create_user_state, if_neg hne]
    | getOp i => rfl
    | listOp p ps => rfl
    | updateOp i u now =>
      have hne := update_user_vf su i u now uerrs h
      show (update_user su i u now).2 = su
      rw [update_user_state, if_neg hne]
    | deleteOp i =>
      exfalso
      have h' : (delete_user su i).1 = .validationFailed uerrs := h
      unfold delete_user at h'
      split at h' <;> simp at h'

/-- Witness for C2: a create with an empty item name and a create with a
too-short user password both fail validation and leave the fresh stores
untouched. -/
theorem c2_witness :
    (applyItemOp initItemsState (.createOp ⟨"", none, 1, true⟩ 0)).2 = initItemsState ∧
    (applyUserOp initUsersState (.createOp ⟨"a@b", "abc", none, "short"⟩ 0)).2 = initUsersState :=
  ⟨(c2_validation_failed_store_unchanged initItemsState initUsersState
      (.createOp ⟨"", none, 1, true⟩ 0) (.createOp ⟨"a@b", "abc", none, "short"⟩ 0)
      [⟨"name", "invalid name length", "string_length"⟩]
      [⟨"password", "invalid password length", "string_length"⟩]).1 (by decide),
   (c2_validation_failed_store_unchanged initItemsState initUsersState
      (.createOp ⟨"", none, 1, true⟩ 0) (.createOp ⟨"a@b", "abc", none, "short"⟩ 0)
      [⟨"name", "invalid name length", "string_length"⟩]
      [⟨"password", "invalid password length", "string_length"⟩]).2 (by decide)⟩

/-- The duplicate scan finds a conflict whenever some stored user already has
the requested username (whichever conflicting field is hit first). -/
theorem findConflict_of_username (users : List UserRec) (p : UserCreate)
    (h : ∃ r ∈ users, r.username = p.username) :
    ∃ msg, findConflict users p = some msg := by
  induction users with
  | nil =>
    obtain ⟨r, hr, _⟩ := h
    simp at hr
  | cons r₀ rest ih =>
    by_cases h1 : r₀.username = p.username
    · exact ⟨"Username already exists", by simp [findConflict, h1]⟩
    · by_cases h2 : r₀.email = p.email
      · exact ⟨"Email already exists", by simp [findConflict, h1, h2]⟩
      · obtain ⟨r, hr, hu⟩ := h
        rcases List.mem_cons.mp hr with h3 | h3
        · exact absurd (h3 ▸ hu) h1
        · obtain ⟨msg, hm⟩ := ih ⟨r, h3, hu⟩
          exact ⟨msg, by simp [findConflict, h1, h2, hm]⟩

/-- C3: creating a user whose username is already taken (whatever the email)
fails with a `Conflict` outcome, and the user store's mapping and counter are
unchanged by the failed create. -/
theorem c3_duplicate_username_conflict (s : UsersState) (p : UserCreate) (now : Nat)
    (hv : validateUserCreate p = [])
    (hdup : ∃ r ∈ dictValues s.users_db, r.username = p.username) :
    (∃ msg, (create_user s p now).1 = .conflict msg) ∧ (create_user s p now).2 = s := by
  obtain ⟨msg, hm⟩ := findConflict_of_username _ p hdup
  constructor
  · refine ⟨msg, ?_⟩
    unfold create_user
    rw [hv]
    dsimp only
    rw [hm]
  · rw [create_user_state, if_pos hv, hm]

/-- Witness for C3: after one create of user `alice`, a second create with
username `alice` and a different email yields `Conflict` and leaves the
store (size 1) and counter unchanged. -/
theorem c3_witness :
    (∃ msg, (create_user ⟨[(1, ⟨1, some "a@b", "alice", none, true, 0, none, none⟩)], 2⟩
        ⟨"c@d", "alice", none, "password1"⟩ 5).1 = .conflict msg) ∧
    (create_user ⟨[(1, ⟨1, some "a@b", "alice", none, true, 0, none, none⟩)], 2⟩
        ⟨"c@d", "alice", none, "password1"⟩ 5).2 =
      ⟨[(1, ⟨1, some "a@b", "alice", none, true, 0, none, none⟩)], 2⟩ :=
  c3_duplicate_username_conflict
    ⟨[(1, ⟨1, some "a@b", "alice", none, true, 0, none, none⟩)], 2⟩
    ⟨"c@d", "alice", none, "password1"⟩ 5 (by decide)
    ⟨⟨1, some "a@b", "alice", none, true, 0, none, none⟩, by simp [dictValues], rfl⟩

/-- C10: an accepted user update never changes the stored user's `username`
or `id`: the update schema carries only `email`, `full_name` and `password`. -/
theorem c10_update_preserves_username_id (s : UsersState) (uid : Nat)
    (u : UserUpdate) (now : Nat) (r : UserRec)
    (hr : dictLookup s.users_db uid = some r)
    (hv : validateUserUpdate u = []) :
    ∃ r', dictLookup (update_user s uid u now).2.users_db uid = some r' ∧
      r'.username = r.username ∧ r'.id = r.id := by
  refine ⟨userApplyUpdate r u now, ?_, rfl, rfl⟩
  rw [update_user_state, if_pos hv, hr]
  exact dictLookup_dictReplace_self _ _ _ _ hr

/-- Witness for C10: updating user 1's email and password leaves username
`alice` and id 1 in place. -/
theorem c10_witness :
    ∃ r', dictLookup (update_user ⟨[(1, ⟨1, some "a@b", "alice", none, true, 0, none, none⟩)], 2⟩
        1 ⟨some (some "new@b"), none, some (some "password2")⟩ 7).2.users_db 1 = some r' ∧
      r'.username = (⟨1, some "a@b", "alice", none, true, 0, none, none⟩ : UserRec).username ∧
      r'.id = (⟨1, some "a@b", "alice", none, true, 0, none, none⟩ : UserRec).id :=
  c10_update_preserves_username_id
    ⟨[(1, ⟨1, some "a@b", "alice", none, true, 0, none, none⟩)], 2⟩ 1
    ⟨some (some "new@b"), none, some (some "password2")⟩ 7
    ⟨1, some "a@b", "alice", none, true, 0, none, none⟩ (by decide) (by decide)

/-- C5: an accepted partial update of an existing item changes exactly the
fields present in the payload (to the supplied value, null included); absent
fields keep their prior values, `id` and `created_at` are untouched, and
`updated_at` becomes `some now`. -/
theorem c5_partial_update_frame (s : ItemsState) (iid : Nat) (u : ItemUpdate)
    (now : Nat) (r : ItemRec)
    (hr : dictLookup s.items_db iid = some r)
    (hv : validateItemUpdate u = []) :
    ∃ r', dictLookup (update_item s iid u now).2.items_db iid = some r' ∧
      (∀ v, u.name = some v → r'.name = v) ∧
      (u.name = none → r'.name = r.name) ∧
      (∀ v, u.description = some v → r'.description = v) ∧
      (u.description = none → r'.description = r.description) ∧
      (∀ v, u.price = some v → r'.price = v) ∧
      (u.price = none → r'.price = r.price) ∧
      (∀ v, u.is_available = some v → r'.is_available = v) ∧
      (u.is_available = none → r'.is_available = r.is_available) ∧
      r'.id = r.id ∧ r'.created_at = r.created_at ∧ r'.updated_at = some now := by
  refine ⟨itemApplyUpdate r u now, ?_, ?_, ?_, ?_, ?_, ?_, ?_, ?_, ?_, rfl, rfl, rfl⟩
  · rw [update_item_state, if_pos hv, hr]
    exact dictLookup_dictReplace_self _ _ _ _ hr
  · intro v h
    simp [itemApplyUpdate, h]
  · intro h
    simp [itemApplyUpdate, h]
  · intro v h
    simp [itemApplyUpdate, h]
  · intro h
    simp [itemApplyUpdate, h]
  · intro v h
    simp [itemApplyUpdate, h]
  · intro h
    simp [itemApplyUpdate, h]
  · intro v h
    simp [itemApplyUpdate, h]
  · intro h
    simp [itemApplyUpdate, h]

/-- Witness for C5: updating only the price of item 1 keeps name,
description and availability, and stamps `updated_at`. -/
theorem c5_witness :
    ∃ r', dictLookup (update_item
        ⟨[(1, ⟨1, some "pen", some "blue", some 3, some true, 0, none⟩)], 2⟩
        1 ⟨none, none, some (some 5), none⟩ 9).2.items_db 1 = some r' ∧
      (∀ v, (⟨none, none, some (some 5), none⟩ : ItemUpdate).name = some v → r'.name = v) ∧
      ((⟨none, none, some (some 5), none⟩ : ItemUpdate).name = none →
        r'.name = (⟨1, some "pen", some "blue", some 3, some true, 0, none⟩ : ItemRec).name) ∧
      (∀ v, (⟨none, none, some (some 5), none⟩ : ItemUpdate).description = some v →
        r'.description = v) ∧
      ((⟨none, none, some (some 5), none⟩ : ItemUpdate).description = none →
        r'.description =
          (⟨1, some "pen", some "blue", some 3, some true, 0, none⟩ : ItemRec).description) ∧
      (∀ v, (⟨none, none, some (some 5), none⟩ : ItemUpdate).price = some v → r'.price = v) ∧
      ((⟨none, none, some (some 5), none⟩ : ItemUpdate).price = none →
        r'.price = (⟨1, some "pen", some "blue", some 3, some true, 0, none⟩ : ItemRec).price) ∧
      (∀ v, (⟨none, none, some (some 5), none⟩ : ItemUpdate).is_available = some v →
        r'.is_available = v) ∧
      ((⟨none, none, some (some 5), none⟩ : ItemUpdate).is_available = none →
        r'.is_available =
          (⟨1, some "pen", some "blue", some 3, some true, 0, none⟩ : ItemRec).is_available) ∧
      r'.id = (⟨1, some "pen", some "blue", some 3, some true, 0, none⟩ : ItemRec).id ∧
      r'.created_at =
        (⟨1, some "pen", some "blue", some 3, some true, 0, none⟩ : ItemRec).created_at ∧
      r'.updated_at = some 9 :=
  c5_partial_update_frame
    ⟨[(1, ⟨1, some "pen", some "blue", some 3, some true, 0, none⟩)], 2⟩
    1 ⟨none, none, some (some 5), none⟩ 9
    ⟨1, some "pen", some "blue", some 3, some true, 0, none⟩
    (by decide) (by decide)

/-- C7 counterexample: the claim "every record that exists in the store has
price strictly greater than zero" is false of the program.  Create a valid
item, then send `PUT /items/1` with body `{"price": null}`: the explicit null
passes `ItemUpdate` validation (the field is `Optional`, `gt=0` applies only
to the non-null branch) and `exclude_unset` merges it into the stored dict,
leaving record 1 with a null price — not a price greater than zero. -/
theorem c7_counterexample :
    dictLookup (runItemOps
        [ItemOp.createOp ⟨"pen", none, 3, true⟩ 0,
         ItemOp.updateOp 1 ⟨none, none, some none, none⟩ 1]
        initItemsState).2.items_db 1 =
      some ⟨1, some "pen", none, none, some true, 0, some 1⟩ ∧
    (⟨1, some "pen", none, none, some true, 0, some 1⟩ : ItemRec).price = none := by
  constructor
  · decide
  · rfl

/-- C7 (amended): a create whose price is not strictly positive yields a
(non-empty) validation failure and inserts nothing; and over every request
sequence, no stored record ever carries a non-positive numeric price — every
stored price is strictly positive or null, null arising only from an
explicitly-null price update. -/
theorem c7_price_positive (p : ItemCreate) (s : ItemsState) (now : Nat)
    (hp : p.price ≤ 0) :
    (∃ errs, (create_item s p now).1 = .validationFailed errs ∧ errs ≠ []) ∧
    (create_item s p now).2 = s ∧
    (∀ ops : List ItemOp, ∀ r ∈ dictValues (runItemOps ops initItemsState).2.items_db,
      ∀ pr : ℚ, r.price = some pr → 0 < pr) := by
  have hpf : validItemPrice p.price = false := by
    simp [validItemPrice]
    exact hp
  have hvne : validateItemCreate p ≠ [] := by
    intro h
    have h3 := ((validateItemCreate_eq_nil p).mp h).2.2
    rw [hpf] at h3
    simp at h3
  refine ⟨?_, ?_, ?_⟩
  · cases hv : validateItemCreate p with
    | nil => exact absurd hv hvne
    | cons e es =>
      refine ⟨e :: es, ?_, by simp⟩
      unfold create_item
      rw [hv]
  · rw [create_item_state, if_neg hvne]
  · intro ops r hr
    exact runItemOps_pricePos ops initItemsState initItemsState_pricePos r hr

/-- Witness for C7: creating an item priced 0 into a fresh store fails
validation, inserts nothing, and the no-non-positive-price invariant holds. -/
theorem c7_witness :
    (∃ errs, (create_item initItemsState ⟨"pen", none, 0, true⟩ 0).1 =
      .validationFailed errs ∧ errs ≠ []) ∧
    (create_item initItemsState ⟨"pen", none, 0, true⟩ 0).2 = initItemsState ∧
    (∀ ops : List ItemOp, ∀ r ∈ dictValues (runItemOps ops initItemsState).2.items_db,
      ∀ pr : ℚ, r.price = some pr → 0 < pr) :=
  c7_price_positive ⟨"pen", none, 0, true⟩ initItemsState 0 (by norm_num)

/-- C8: creating a valid item and then getting it by the returned id yields a
response whose `name`, `description`, `price` and `is_available` equal the
payload and whose `updated_at` is absent. -/
theorem c8_create_then_get (s : ItemsState) (p : ItemCreate) (now : Nat)
    (hv : validateItemCreate p = []) :
    ∃ resp s', create_item s p now = (.created resp, s') ∧
      get_item s' resp.id = .ok resp ∧
      resp.name = p.name ∧ resp.description = p.description ∧
      resp.price = p.price ∧ resp.is_available = p.is_available ∧
      resp.updated_at = none := by
  have hwf := itemRecWF_of_create p s.item_id_counter now hv
  refine ⟨itemResponseOf ⟨s.item_id_counter, some p.name, p.description, some p.price,
      some p.is_available, now, none⟩,
    ⟨dictInsert s.items_db s.item_id_counter
      ⟨s.item_id_counter, some p.name, p.description, some p.price,
        some p.is_available, now, none⟩,
     s.item_id_counter + 1⟩, ?_, ?_, rfl, rfl, rfl, rfl, rfl⟩
  · unfold create_item
    rw [hv]
    dsimp only
    simp only [mkItemResponse]
    rw [if_pos hwf]
  · show get_item _ s.item_id_counter = _
    unfold get_item
    rw [dictLookup_dictInsert_self]
    dsimp only
    simp only [mkItemResponse]
    rw [if_pos hwf]

/-- Witness for C8: create a valid item in a fresh store and read it back. -/
theorem c8_witness :
    ∃ resp s', create_item initItemsState ⟨"pen", some "blue", 3, true⟩ 4 =
        (.created resp, s') ∧
      get_item s' resp.id = .ok resp ∧
      resp.name = "pen" ∧ resp.description = some "blue" ∧
      resp.price = 3 ∧ resp.is_available = true ∧
      resp.updated_at = none :=
  c8_create_then_get initItemsState ⟨"pen", some "blue", 3, true⟩ 4 (by decide)

/-- C1: over any sequence of user requests against a fresh store, no user
record serialized in any response body carries a `password` field: every
record on every path (`create`, `get`, `list`, `update`) is serialized
through the `UserResponse` schema, which declares no such field. -/
theorem c1_no_password_in_responses (ops : List UserOp) (o : UserOutcome)
    (_ho : o ∈ (runUserOps ops initUsersState).1) (r : UserResponse)
    (_hr : r ∈ userOutcomeRecords o) :
    "password" ∉ (userResponseFields r).map Prod.fst := by
  intro hmem
  simp [userResponseFields] at hmem

/-- Witness for C1: the create response for user `alice` carries no
`password` key. -/
theorem c1_witness :
    "password" ∉ (userResponseFields
      (userResponseOf ⟨1, some "a@b", "alice", none, true, 0, none, none⟩)).map Prod.fst :=
  c1_no_password_in_responses
    [.createOp ⟨"a@b", "alice", none, "password1"⟩ 0]
    (.created (userResponseOf ⟨1, some "a@b", "alice", none, true, 0, none, none⟩))
    (by
      have h : (runUserOps [UserOp.createOp ⟨"a@b", "alice", none, "password1"⟩ 0]
          initUsersState).1 =
          [UserOutcome.created (userResponseOf ⟨1, some "a@b", "alice", none, true, 0, none, none⟩)] := by
        decide
      rw [h]
      exact List.mem_cons_self _ _)
    (userResponseOf ⟨1, some "a@b", "alice", none, true, 0, none, none⟩)
    (by simp [userOutcomeRecords])

/-- C4: create `N` items into a fresh store; then for every page size
`k ∈ [1,100]` each page is the `[(page-1)*k, (page-1)*k + k)` slice of the
insertion-ordered responses, the concatenation of pages `1..ceil(N/k)`
reproduces all `N` items exactly once in creation order, and any page past
the end is an empty page (not an error). -/
theorem c4_pagination_roundtrip (pts : List (ItemCreate × Nat)) (k : Nat)
    (s : ItemsState) (resps : List ItemResponse)
    (hv : ∀ x ∈ pts, validateItemCreate x.1 = [])
    (hk1 : 1 ≤ k) (hk2 : k ≤ 100)
    (hs : s = (runItemOps (pts.map fun x => ItemOp.createOp x.1 x.2) initItemsState).2)
    (hresps : resps = (dictValues s.items_db).map itemResponseOf) :
    resps.length = pts.length ∧
    (∀ page, 1 ≤ page → get_items s page k false =
        .listed ⟨(resps.drop ((page - 1) * k)).take k, pts.length, page, k⟩) ∧
    ((List.range' 1 ((pts.length + k - 1) / k)).map
        (fun page => (resps.drop ((page - 1) * k)).take k)).flatten = resps ∧
    (∀ page, (pts.length + k - 1) / k < page →
        get_items s page k false = .listed ⟨[], pts.length, page, k⟩) := by
  subst hs
  obtain ⟨news, h1, h2, h3⟩ :=
    runItemOps_creates_values pts initItemsState initItemsState_keysBelow hv
  have hvals : dictValues (runItemOps (pts.map fun x => ItemOp.createOp x.1 x.2)
      initItemsState).2.items_db = news := by
    simpa [initItemsState, dictValues] using h1
  have hWF : ∀ r ∈ dictValues (runItemOps (pts.map fun x => ItemOp.createOp x.1 x.2)
      initItemsState).2.items_db, itemRecWF r = true := by
    rw [hvals]
    exact h3
  have hlen : (dictValues (runItemOps (pts.map fun x => ItemOp.createOp x.1 x.2)
      initItemsState).2.items_db).length = pts.length := by
    rw [hvals]
    exact h2
  have hrlen : resps.length = pts.length := by
    rw [hresps, List.length_map, hlen]
  refine ⟨hrlen, ?_, ?_, ?_⟩
  · intro page hp
    have h := get_items_eq _ page k false hWF hp hk1 hk2
    rw [h, hresps]
    simp [listedItems, hlen]
  · rw [List.range'_eq_map_range, List.map_map]
    have hcomp : ((fun page => (resps.drop ((page - 1) * k)).take k) ∘ (fun i => 1 + i))
        = fun i => (resps.drop (i * k)).take k := by
      funext i
      simp [Nat.add_sub_cancel_left]
    rw [hcomp, join_pages]
    apply List.take_of_length_le
    rw [hrlen]
    exact ceil_div_mul_ge pts.length k hk1
  · intro page hpage
    have hp1 : 1 ≤ page :=
      Nat.succ_le_of_lt (Nat.lt_of_le_of_lt (Nat.zero_le _) hpage)
    have h := get_items_eq _ page k false hWF hp1 hk1 hk2
    rw [h]
    have hsl := slice_past_end resps k page hk1 (by rw [hrlen]; exact hpage)
    rw [hresps] at hsl
    simp [listedItems, hlen, hsl]

/-- Witness for C4: two items with page size 1 give two pages of one item
each, concatenating to the full creation-ordered list, and page 3 is empty. -/
theorem c4_witness :
    ([⟨1, "a", none, 1, true, 0, none⟩, ⟨2, "b", none, 2, true, 1, none⟩] :
        List ItemResponse).length = 2 ∧
    (∀ page, 1 ≤ page →
        get_items ⟨[(1, ⟨1, some "a", none, some 1, some true, 0, none⟩),
            (2, ⟨2, some "b", none, some 2, some true, 1, none⟩)], 3⟩ page 1 false =
          .listed ⟨(([⟨1, "a", none, 1, true, 0, none⟩, ⟨2, "b", none, 2, true, 1, none⟩] :
              List ItemResponse).drop ((page - 1) * 1)).take 1, 2, page, 1⟩) ∧
    ((List.range' 1 2).map
        (fun page => (([⟨1, "a", none, 1, true, 0, none⟩, ⟨2, "b", none, 2, true, 1, none⟩] :
            List ItemResponse).drop ((page - 1) * 1)).take 1)).flatten =
      [⟨1, "a", none, 1, true, 0, none⟩, ⟨2, "b", none, 2, true, 1, none⟩] ∧
    (∀ page, 2 < page →
        get_items ⟨[(1, ⟨1, some "a", none, some 1, some true, 0, none⟩),
            (2, ⟨2, some "b", none, some 2, some true, 1, none⟩)], 3⟩ page 1 false =
          .listed ⟨[], 2, page, 1⟩) :=
  c4_pagination_roundtrip
    [(⟨"a", none, 1, true⟩, 0), (⟨"b", none, 2, true⟩, 1)] 1
    ⟨[(1, ⟨1, some "a", none, some 1, some true, 0, none⟩),
      (2, ⟨2, some "b", none, some 2, some true, 1, none⟩)], 3⟩
    [⟨1, "a", none, 1, true, 0, none⟩, ⟨2, "b", none, 2, true, 1, none⟩]
    (by decide) (by decide) (by decide) (by decide) (by decide)

/-- C6: over any request sequence from a fresh store, the ids handed out by
successful creates are exactly 1, 2, 3, ... in order; and once an id is
successfully deleted, no later request sequence ever stores a record under it
again — getting it afterwards always yields `NotFound`. -/
theorem c6_sequential_ids_no_reuse (ops ops₁ ops₂ : List ItemOp) (iid : Nat) :
    createdIds (runItemOps ops initItemsState).1 =
      List.range' 1 (createdIds (runItemOps ops initItemsState).1).length ∧
    ((applyItemOp (runItemOps ops₁ initItemsState).2 (.deleteOp iid)).1 = .noContent →
      dictLookup (runItemOps ops₂
          (applyItemOp (runItemOps ops₁ initItemsState).2 (.deleteOp iid)).2).2.items_db iid
        = none ∧
      ∃ msg, get_item (runItemOps ops₂
          (applyItemOp (runItemOps ops₁ initItemsState).2 (.deleteOp iid)).2).2 iid
        = .notFound msg) := by
  constructor
  · have h := createdIds_run ops initItemsState
    simpa [initItemsState] using h
  · intro hdel
    have hkb₁ : itemKeysBelow (runItemOps ops₁ initItemsState).2 :=
      runItemOps_keysBelow _ _ initItemsState_keysBelow
    cases hl : dictLookup (runItemOps ops₁ initItemsState).2.items_db iid with
    | none =>
      exfalso
      have hdel' : (delete_item (runItemOps ops₁ initItemsState).2 iid).1 = .noContent := hdel
      unfold delete_item at hdel'
      rw [hl] at hdel'
      simp at hdel'
    | some r =>
      have hlt : iid < (runItemOps ops₁ initItemsState).2.item_id_counter :=
        hkb₁ (iid, r) (dictLookup_some_mem _ _ _ hl)
      have hstate : (applyItemOp (runItemOps ops₁ initItemsState).2 (.deleteOp iid)).2 =
          ⟨dictErase (runItemOps ops₁ initItemsState).2.items_db iid,
           (runItemOps ops₁ initItemsState).2.item_id_counter⟩ := by
        show (delete_item _ iid).2 = _
        rw [delete_item_state, hl]
      obtain ⟨h1, h2⟩ := runItemOps_absent ops₂
        (applyItemOp (runItemOps ops₁ initItemsState).2 (.deleteOp iid)).2 iid
        (by rw [hstate]; exact hlt)
        (by rw [hstate]; exact dictLookup_dictErase_self _ _)
      refine ⟨h2, ⟨"Item with id " ++ toString iid ++ " not found", ?_⟩⟩
      unfold get_item
      rw [h2]

/-- Witness for C6: create item 1, delete it, create another item; the new
item gets id 2, and getting id 1 yields `NotFound`. -/
theorem c6_witness :
    createdIds (runItemOps [ItemOp.createOp ⟨"a", none, 1, true⟩ 0] initItemsState).1 =
      List.range' 1
        (createdIds (runItemOps [ItemOp.createOp ⟨"a", none, 1, true⟩ 0] initItemsState).1).length ∧
    (dictLookup (runItemOps [ItemOp.createOp ⟨"a", none, 1, true⟩ 2]
        (applyItemOp (runItemOps [ItemOp.createOp ⟨"a", none, 1, true⟩ 0] initItemsState).2
          (.deleteOp 1)).2).2.items_db 1 = none ∧
      ∃ msg, get_item (runItemOps [ItemOp.createOp ⟨"a", none, 1, true⟩ 2]
          (applyItemOp (runItemOps [ItemOp.createOp ⟨"a", none, 1, true⟩ 0] initItemsState).2
            (.deleteOp 1)).2).2 1 = .notFound msg) :=
  ⟨(c6_sequential_ids_no_reuse [ItemOp.createOp ⟨"a", none, 1, true⟩ 0]
      [ItemOp.createOp ⟨"a", none, 1, true⟩ 0] [ItemOp.createOp ⟨"a", none, 1, true⟩ 2] 1).1,
   (c6_sequential_ids_no_reuse [ItemOp.createOp ⟨"a", none, 1, true⟩ 0]
      [ItemOp.createOp ⟨"a", none, 1, true⟩ 0] [ItemOp.createOp ⟨"a", none, 1, true⟩ 2] 1).2
     (by decide)⟩
